import Mathlib

/-!
# Verification of the remote-subagents resilience layer

Shallow embedding of the retry executor (`src/retry.ts`), the metrics store
(`src/metrics.ts`), the shutdown orchestrator (shutdown module) and the error
taxonomy (errors module), together with theorems settling the specification
claims about them.

JS numbers are modelled as exact rationals (`ℚ`) where real arithmetic occurs
(delays, percentile ranks, means) and as `Int` for recorded samples and
counters.  Asynchrony is modelled by explicit state passing and by event
sequences: JavaScript's run-to-completion scheduling serialises the
synchronous prologue of every call, so interleaved calls are faithfully
represented as a sequence of atomic steps.
-/

namespace RemoteSubagents

/-! ## Error taxonomy (errors module)

A JS thrown value is either an `Error` instance or some other value (carried
by its `String(·)` form).  An `Error` instance may additionally be a
`RemoteAgentError`, in which case it carries the taxonomy's base-shape data:
a machine-readable code, a timestamp, and optional structured context. -/

/-- Data present exactly on `RemoteAgentError` instances: the taxonomy's
base shape beyond plain `Error` (code, timestamp, optional context).
Context is modelled as an association list of string keys to optional
string values. -/
structure RAData where
  code : String
  timestamp : Nat
  context : Option (List (String × Option String))
deriving Repr, DecidableEq

/-- A JS `Error` instance: `name`, `message`, optional `stack`, and
`raData = some _` exactly when the value is `instanceof RemoteAgentError`. -/
structure JsError where
  name : String
  message : String
  stack : Option String
  raData : Option RAData
deriving Repr, DecidableEq

/-- A JS thrown value: an `Error` instance, or any other value carried by
its `String(·)` rendering. -/
inductive Thrown where
  | jsError : JsError → Thrown
  | other : String → Thrown
deriving Repr, DecidableEq

/-- `isRemoteAgentError` (errors module): type guard,
`error instanceof RemoteAgentError`. -/
def isRemoteAgentError : Thrown → Bool
  | .jsError e => e.raData.isSome
  | .other _ => false

/-- `toRemoteAgentError` (errors module): pass a `RemoteAgentError` through
unchanged; wrap any other `Error` as
`new RemoteAgentError(error.message, "UNKNOWN_ERROR", {originalName, originalStack})`;
wrap a non-`Error` value as `new RemoteAgentError(String(error), "UNKNOWN_ERROR")`.
`now` is the clock value stamped by the `RemoteAgentError` constructor. -/
def toRemoteAgentError (now : Nat) : Thrown → JsError
  | .jsError e =>
    if e.raData.isSome then e
    else
      { name := "RemoteAgentError", message := e.message, stack := none,
        raData := some { code := "UNKNOWN_ERROR", timestamp := now,
                         context := some [("originalName", some e.name),
                                          ("originalStack", e.stack)] } }
  | .other s =>
      { name := "RemoteAgentError", message := s, stack := none,
        raData := some { code := "UNKNOWN_ERROR", timestamp := now,
                         context := none } }

/-- The `code` of a taxonomy error, when the value carries one. -/
def errCode (e : JsError) : Option String := e.raData.map (fun d => d.code)

/-! ## Retry executor (`src/retry.ts`) -/

/-- `retry.ts` line 94: `error instanceof Error ? error : new Error(String(error))`.
Non-`Error` thrown values are wrapped in a fresh plain `Error`. -/
def coerceThrown : Thrown → JsError
  | .jsError e => e
  | .other s => { name := "Error", message := s, stack := none, raData := none }

/-- `calculateDelay` (`retry.ts` lines 36-51): exponential backoff
`baseDelayMs * 2 ^ attemptNumber`, capped at `maxDelayMs`, multiplied by the
jitter factor `0.5 + rand` where `rand` is the `Math.random()` draw, then
`Math.floor`ed. -/
def calculateDelay (attemptNumber : Nat) (baseDelayMs maxDelayMs : ℚ)
    (rand : ℚ) : Int :=
  let exponentialDelay := baseDelayMs * 2 ^ attemptNumber
  let cappedDelay := min exponentialDelay maxDelayMs
  let jitter := cappedDelay * (1 / 2 + rand)
  ⌊jitter⌋

/-- Observable trace of one `retry` run: how many times the operation was
invoked, the final outcome (`ok` result or the surfaced error), the
`(error, attemptIndex)` arguments of every `shouldRetry` predicate call, the
`(error, attemptNumber, delayMs)` arguments of every `onRetry` observer call,
and the delays actually slept. -/
structure RetryTrace (T : Type) where
  invocations : Nat
  result : Except JsError T
  predCalls : List (JsError × Nat)
  observerCalls : List (JsError × Nat × Int)
  delays : List Int
deriving Repr

/-- The loop of `retry` (`retry.ts` lines 90-117), by recursion on the number
of retries still allowed (`remaining = maxRetries - attempt`).  `fn i` is the
outcome of the `i`-th invocation of the operation; `rand i` the
`Math.random()` draw used for the delay after attempt `i`.
With `remaining = 0` the attempt is the last: on failure the loop breaks and
the error is surfaced without consulting the predicate.  Otherwise a failure
consults `shouldRetry (coerced error) attempt`; if it declines the coerced
error is thrown at once (no delay, no observer call); if it accepts, the
delay is computed, the observer is called with `(error, attempt+1, delay)`,
the delay is slept, and the loop proceeds to attempt `attempt+1`. -/
def retryAux {T : Type} (fn : Nat → Except Thrown T)
    (shouldRetry : JsError → Nat → Bool)
    (baseDelayMs maxDelayMs : ℚ) (rand : Nat → ℚ) :
    (attempt : Nat) → (remaining : Nat) → RetryTrace T
  | attempt, 0 =>
    match fn attempt with
    | .ok v => ⟨1, .ok v, [], [], []⟩
    | .error t => ⟨1, .error (coerceThrown t), [], [], []⟩
  | attempt, remaining + 1 =>
    match fn attempt with
    | .ok v => ⟨1, .ok v, [], [], []⟩
    | .error t =>
      let lastError := coerceThrown t
      if shouldRetry lastError attempt then
        let delayMs := calculateDelay attempt baseDelayMs maxDelayMs (rand attempt)
        let rest := retryAux fn shouldRetry baseDelayMs maxDelayMs rand
          (attempt + 1) remaining
        ⟨1 + rest.invocations, rest.result,
         (lastError, attempt) :: rest.predCalls,
         (lastError, attempt + 1, delayMs) :: rest.observerCalls,
         delayMs :: rest.delays⟩
      else
        ⟨1, .error lastError, [(lastError, attempt)], [], []⟩

/-- `retry` (`retry.ts` lines 76-121): run the loop from attempt `0` with
`maxRetries` retries allowed. -/
def retry {T : Type} (fn : Nat → Except Thrown T) (maxRetries : Nat)
    (shouldRetry : JsError → Nat → Bool)
    (baseDelayMs maxDelayMs : ℚ) (rand : Nat → ℚ) : RetryTrace T :=
  retryAux fn shouldRetry baseDelayMs maxDelayMs rand 0 maxRetries

/-- `defaultShouldRetry` (`retry.ts` line 25): retry on any error. -/
def defaultShouldRetry : JsError → Nat → Bool := fun _ _ => true

/-! ## Metrics store (`src/metrics.ts`)

Every operation passes through `withLock`, a chained promise that serialises
operations; the store is therefore modelled as a state acted on by a
sequence of operations in submission order. -/

/-- The fixed counter names (`metrics.ts` line 29). -/
inductive CounterName where
  | tasks_spawned | tasks_succeeded | tasks_failed
deriving Repr, DecidableEq

/-- The fixed histogram names (`metrics.ts` lines 32-35). -/
inductive HistogramName where
  | sandbox_creation_time | install_time | execution_time
deriving Repr, DecidableEq

/-- The metrics module's mutable state: the counter record, the histogram
record, and the wall clock (`Date.now()`), which advances as operations run. -/
structure MState where
  counters : CounterName → Int
  histograms : HistogramName → List Int
  clock : Int

/-- Initial module state (`metrics.ts` lines 38-48): all counters `0`, all
histogram series empty. -/
def initMState : MState :=
  { counters := fun _ => 0, histograms := fun _ => [], clock := 0 }

/-- `incrementCounter` (`metrics.ts` lines 108-115): `counters[name] += amount`
under the lock. -/
def incrementCounter (name : CounterName) (amount : Int) (s : MState) : MState :=
  { s with counters := fun n => if n = name then s.counters n + amount else s.counters n }

/-- `recordHistogram` (`metrics.ts` lines 123-130): `histograms[name].push(value)`
under the lock. -/
def recordHistogram (name : HistogramName) (value : Int) (s : MState) : MState :=
  { s with histograms := fun n => if n = name then s.histograms n ++ [value] else s.histograms n }

/-- `getCounter` (`metrics.ts` lines 165-167). -/
def getCounter (name : CounterName) (s : MState) : Int := s.counters name

/-- `resetMetrics` (`metrics.ts` lines 201-210): zero every counter, truncate
every histogram series. -/
def resetMetrics (s : MState) : MState :=
  { s with counters := fun _ => 0, histograms := fun _ => [] }

/-- A serialised metrics operation (one `withLock` critical section). -/
inductive MetricsOp where
  | inc : CounterName → Int → MetricsOp
  | record : HistogramName → Int → MetricsOp
  | reset : MetricsOp
deriving Repr, DecidableEq

/-- Apply one serialised operation to the store. -/
def applyOp (s : MState) : MetricsOp → MState
  | .inc name amount => incrementCounter name amount s
  | .record name value => recordHistogram name value s
  | .reset => resetMetrics s

/-- Apply a submission-ordered sequence of operations. -/
def applyOps (s : MState) (ops : List MetricsOp) : MState := ops.foldl applyOp s

/-- An async operation run against the metrics state: it may advance the
clock and mutate the store, and finishes with a result or a thrown value. -/
def JsOp (T : Type) := MState → Except Thrown T × MState

/-- `measureTime` (`metrics.ts` lines 146-157): note `Date.now()`, run the
operation inside `try`, and in `finally` — on success and failure alike —
record the elapsed time to the named histogram, passing the operation's
outcome through unchanged. -/
def measureTime {T : Type} (name : HistogramName) (fn : JsOp T) : JsOp T :=
  fun s =>
    let start := s.clock
    let (r, s1) := fn s
    let duration := s1.clock - start
    (r, recordHistogram name duration s1)

/-- `percentile` (`metrics.ts` lines 74-78): on the ascending-sorted series,
rank index `Math.ceil((p / 100) * n) - 1`, floored at `0`; an empty series
yields `0`. -/
def percentile (sortedValues : List Int) (p : ℚ) : Int :=
  if sortedValues.length = 0 then 0
  else
    let index : Int := ⌈p / 100 * (sortedValues.length : ℚ)⌉ - 1
    sortedValues.getD (max 0 index).toNat 0

/-- Per-histogram snapshot statistics (`metrics.ts` lines 9-17).  `mean` is an
exact rational. -/
structure HistogramStats where
  count : Nat
  hmin : Int
  hmax : Int
  mean : ℚ
  median : Int
  p95 : Int
  p99 : Int
deriving Repr, DecidableEq

/-- `calculateStats` (`metrics.ts` lines 83-100): all-zero record for an empty
series; otherwise sort ascending, then `count/min/max/mean` directly and
`median/p95/p99` via `percentile`. -/
def calculateStats (values : List Int) : HistogramStats :=
  if values.length = 0 then ⟨0, 0, 0, 0, 0, 0, 0⟩
  else
    let sorted := values.mergeSort (fun a b => a ≤ b)
    let sum : Int := sorted.foldl (· + ·) 0
    { count := sorted.length
      hmin := sorted.getD 0 0
      hmax := sorted.getD (sorted.length - 1) 0
      mean := (sum : ℚ) / (sorted.length : ℚ)
      median := percentile sorted 50
      p95 := percentile sorted 95
      p99 := percentile sorted 99 }

/-- Rank selection exactly as the spec words it: ascending sort, rank index
`ceil(p/100 × n) − 1` clamped to `[0, n−1]`. -/
def specPercentile (values : List Int) (p : ℚ) : Int :=
  let sorted := values.mergeSort (fun a b => a ≤ b)
  let n := sorted.length
  let idx : Int := max 0 (min (⌈p / 100 * (n : ℚ)⌉ - 1) ((n : Int) - 1))
  sorted.getD idx.toNat 0

/-! ## Shutdown orchestrator (shutdown module)

The registry is a `Map` keyed by sandbox id; only the key set matters for the
claims, so it is modelled as a duplicate-free list of ids.  `shutdownAll`'s
guard — `if (shutdownPromise) return shutdownPromise` followed by the
assignment of a fresh execution — runs synchronously with no intervening
`await`, so under JavaScript's run-to-completion scheduling the
check-and-set is atomic: any interleaving of calls is a sequence of atomic
steps.  The per-resource `kill()` calls are likewise issued synchronously
while the execution's `map` builds its promises, so they are part of the
step that starts the execution. -/

/-- One externally observable event against the shutdown module. -/
inductive SdEvent where
  | register : String → SdEvent
  | unregister : String → SdEvent
  | shutdownCall : SdEvent
deriving Repr, DecidableEq

/-- Shutdown module state: the registry's key set, whether `shutdownPromise`
is non-null, the `isShuttingDown` flag, how many shutdown executions have
ever been started, every `kill()` invocation issued (in order), and, per
`shutdownAll` call, the index of the execution whose outcome that call
resolves to. -/
structure SdState where
  registry : List String
  promiseSet : Bool
  isShuttingDown : Bool
  executions : Nat
  kills : List String
  callResults : List Nat
deriving Repr, DecidableEq

/-- Initial module state: empty registry, no shutdown started. -/
def initSd : SdState :=
  ⟨[], false, false, 0, [], []⟩

/-- `registerSandbox` (shutdown module lines 69-79): `Map.set` — overwriting
an existing id leaves the key set unchanged, a new id is appended. -/
def sdRegister (id : String) (s : SdState) : SdState :=
  if s.registry.contains id then s
  else { s with registry := s.registry ++ [id] }

/-- `unregisterSandbox` (shutdown module lines 87-89): `Map.delete`. -/
def sdUnregister (id : String) (s : SdState) : SdState :=
  { s with registry := s.registry.filter (fun x => x ≠ id) }

/-- One `shutdownAll` call (shutdown module lines 111-189).  If
`shutdownPromise` is already set, the caller just receives that same (single,
index-`0`) execution's outcome.  Otherwise the flags are set, a new execution
(index `executions`) starts, and it synchronously snapshots the registry's
keys and issues one `kill()` per key. -/
def sdShutdownAll (s : SdState) : SdState :=
  if s.promiseSet then
    { s with callResults := s.callResults ++ [s.executions - 1] }
  else
    { s with promiseSet := true,
             isShuttingDown := true,
             executions := s.executions + 1,
             kills := s.kills ++ s.registry,
             callResults := s.callResults ++ [s.executions] }

/-- Apply one event to the shutdown module. -/
def sdStep (s : SdState) : SdEvent → SdState
  | .register id => sdRegister id s
  | .unregister id => sdUnregister id s
  | .shutdownCall => sdShutdownAll s

/-- Run an event sequence from the initial module state. -/
def runSd (events : List SdEvent) : SdState := events.foldl sdStep initSd

/-- Outcome of racing one resource's `kill()` against the per-resource
`gracefulTimeoutMs` timer: the kill resolves first, the kill rejects first,
or the timer fires first (covering a `kill()` that never settles). -/
inductive TeardownOutcome where
  | success | failed | timedOut
deriving Repr, DecidableEq

/-- One per-resource drain callback (shutdown module lines 135-163): look the
id up (skip if absent); race `kill()` against the timer; on a resolved race
delete the entry (`try` branch), and on a rejected race — kill error or
timeout — delete the entry as well (`catch` branch).  Every outcome deletes. -/
def shutdownOne (outcome : TeardownOutcome) (reg : List String) (id : String) :
    List String :=
  if reg.contains id then
    match outcome with
    | .success => reg.filter (fun x => x ≠ id)
    | .failed => reg.filter (fun x => x ≠ id)
    | .timedOut => reg.filter (fun x => x ≠ id)
  else reg

/-- The draining procedure of the single shutdown execution (shutdown module
lines 122-187): snapshot the key set, run the per-resource callbacks —
`settled` of them settle before the overall
`gracefulTimeoutMs + forceTimeoutMs` ceiling — and finally
`sandboxRegistry.clear()` unconditionally.  Returns the registry after the
settle phase and the final registry. -/
def drainAll (reg0 : List String) (outcomes : String → TeardownOutcome)
    (settled : Nat) : List String × List String :=
  let ids := reg0
  let afterSettled := (ids.take settled).foldl
    (fun r id => shutdownOne (outcomes id) r id) reg0
  (afterSettled, [])

/-- The series `1, 2, …, 100`, used to pin the percentile formula's exact
values. -/
def oneToHundred : List Int := (List.range 100).map (fun i => (i : Int) + 1)

/-! ## Lemmas about the percentile formula -/

/-- For `p ≤ 100` the rank index `⌈p/100 · n⌉ - 1` never exceeds `n - 1`. -/
lemma ceil_rank_le (n : Nat) (p : ℚ) (hp : p ≤ 100) :
    (⌈p / 100 * (n : ℚ)⌉ : Int) - 1 ≤ (n : Int) - 1 := by
  have h1 : p / 100 ≤ 1 := by
    rw [div_le_one (by norm_num : (0:ℚ) < 100)]; exact hp
  have h2 : p / 100 * (n : ℚ) ≤ (n : ℚ) := by
    calc p / 100 * (n : ℚ) ≤ 1 * (n : ℚ) :=
          mul_le_mul_of_nonneg_right h1 (by positivity)
      _ = (n : ℚ) := one_mul _
  have h3 : (⌈p / 100 * (n : ℚ)⌉ : Int) ≤ (n : Int) := by
    rw [Int.ceil_le]; exact_mod_cast h2
  omega

/-- The code's `percentile` (floor-only clamp) agrees with the spec's rank
formula (two-sided clamp) on every non-empty series and every `p ≤ 100`,
because the rank index is already at most `n - 1`. -/
lemma percentile_eq_specPercentile (values : List Int) (h : values ≠ [])
    (p : ℚ) (hp : p ≤ 100) :
    percentile (values.mergeSort (fun a b => a ≤ b)) p = specPercentile values p := by
  have hlen : (values.mergeSort (fun a b => a ≤ b)).length = values.length :=
    List.length_mergeSort values
  have hne : (values.mergeSort (fun a b => a ≤ b)).length ≠ 0 := by
    rw [hlen]
    simpa using h
  simp only [percentile, specPercentile, if_neg hne]
  rw [min_eq_left (ceil_rank_le _ p hp)]

/-- On a non-empty series the snapshot's `median` is the spec's rank-50
selection. -/
lemma calculateStats_median (values : List Int) (h : values ≠ []) :
    (calculateStats values).median = specPercentile values 50 := by
  have hne : values.length ≠ 0 := by simpa using h
  simp only [calculateStats, if_neg hne]
  exact percentile_eq_specPercentile values h 50 (by norm_num)

/-- On a non-empty series the snapshot's `p95` is the spec's rank-95
selection. -/
lemma calculateStats_p95 (values : List Int) (h : values ≠ []) :
    (calculateStats values).p95 = specPercentile values 95 := by
  have hne : values.length ≠ 0 := by simpa using h
  simp only [calculateStats, if_neg hne]
  exact percentile_eq_specPercentile values h 95 (by norm_num)

/-- On a non-empty series the snapshot's `p99` is the spec's rank-99
selection. -/
lemma calculateStats_p99 (values : List Int) (h : values ≠ []) :
    (calculateStats values).p99 = specPercentile values 99 := by
  have hne : values.length ≠ 0 := by simpa using h
  simp only [calculateStats, if_neg hne]
  exact percentile_eq_specPercentile values h 99 (by norm_num)

/-- `1..100` is already ascending, so sorting it is the identity. -/
lemma oneToHundred_sorted :
    oneToHundred.mergeSort (fun a b => a ≤ b) = oneToHundred :=
  List.mergeSort_of_sorted (by decide)

/-- Rank-50 selection on `1..100` is `50`. -/
lemma specPercentile_oneToHundred_50 : specPercentile oneToHundred 50 = 50 := by
  have hlen : oneToHundred.length = 100 := by decide
  simp only [specPercentile, oneToHundred_sorted, hlen]
  norm_num
  decide

/-- Rank-95 selection on `1..100` is `95`. -/
lemma specPercentile_oneToHundred_95 : specPercentile oneToHundred 95 = 95 := by
  have hlen : oneToHundred.length = 100 := by decide
  simp only [specPercentile, oneToHundred_sorted, hlen]
  norm_num
  decide

/-- Rank-99 selection on `1..100` is `99`. -/
lemma specPercentile_oneToHundred_99 : specPercentile oneToHundred 99 = 99 := by
  have hlen : oneToHundred.length = 100 := by decide
  simp only [specPercentile, oneToHundred_sorted, hlen]
  norm_num
  decide

/-- C4: for every non-empty series and percentile `p ≤ 100`, the code's
percentile selection equals the spec's rank formula — the element at index
`ceil(p/100 × n) − 1`, clamped to `[0, n−1]`, of the ascending sort — and the
snapshot statistics `median`, `p95`, `p99` all follow that formula; on the
series `1..100` they evaluate to `50`, `95`, `99`. -/
theorem percentile_rank_formula (values : List Int) (h : values ≠ [])
    (p : ℚ) (hp : p ≤ 100) :
    percentile (values.mergeSort (fun a b => a ≤ b)) p = specPercentile values p ∧
    (calculateStats values).median = specPercentile values 50 ∧
    (calculateStats values).p95 = specPercentile values 95 ∧
    (calculateStats values).p99 = specPercentile values 99 ∧
    (calculateStats oneToHundred).median = 50 ∧
    (calculateStats oneToHundred).p95 = 95 ∧
    (calculateStats oneToHundred).p99 = 99 := by
  have h100 : oneToHundred ≠ [] := by decide
  refine ⟨percentile_eq_specPercentile values h p hp,
    calculateStats_median values h, calculateStats_p95 values h,
    calculateStats_p99 values h, ?_, ?_, ?_⟩
  · rw [calculateStats_median oneToHundred h100]
    exact specPercentile_oneToHundred_50
  · rw [calculateStats_p95 oneToHundred h100]
    exact specPercentile_oneToHundred_95
  · rw [calculateStats_p99 oneToHundred h100]
    exact specPercentile_oneToHundred_99

/-- Witness for C4 at the concrete series `1..100` and `p = 95`. -/
theorem percentile_rank_formula_witness :
    percentile (oneToHundred.mergeSort (fun a b => a ≤ b)) 95
        = specPercentile oneToHundred 95 ∧
    (calculateStats oneToHundred).median = specPercentile oneToHundred 50 ∧
    (calculateStats oneToHundred).p95 = specPercentile oneToHundred 95 ∧
    (calculateStats oneToHundred).p99 = specPercentile oneToHundred 99 ∧
    (calculateStats oneToHundred).median = 50 ∧
    (calculateStats oneToHundred).p95 = 95 ∧
    (calculateStats oneToHundred).p99 = 99 :=
  percentile_rank_formula oneToHundred (by decide) 95 (by norm_num)

/-! ## `measureTime` (claim C5) -/

/-- A concrete failing operation used to witness the failure path: it
advances the clock by `7` and rejects with a non-`Error` value. -/
def failingOp : JsOp Unit :=
  fun s => (Except.error (Thrown.other "boom"), { s with clock := s.clock + 7 })

/-- C5: `measureTime` passes the wrapped operation's outcome through
unchanged (success and failure alike), appends exactly one duration sample —
the elapsed clock — to the named histogram, and touches nothing else in the
store. -/
theorem measureTime_passthrough {T : Type} (name : HistogramName) (fn : JsOp T)
    (s : MState) (n : HistogramName) (hn : n ≠ name) :
    (measureTime name fn s).1 = (fn s).1 ∧
    ((measureTime name fn s).2).histograms name
      = ((fn s).2).histograms name ++ [((fn s).2).clock - s.clock] ∧
    ((measureTime name fn s).2).histograms n = ((fn s).2).histograms n ∧
    ((measureTime name fn s).2).counters = ((fn s).2).counters ∧
    (∀ v, (fn s).1 = Except.ok v → (measureTime name fn s).1 = Except.ok v) ∧
    (∀ e, (fn s).1 = Except.error e → (measureTime name fn s).1 = Except.error e) := by
  rcases hfs : fn s with ⟨r, s1⟩
  simp [measureTime, recordHistogram, hfs, hn]

/-- Witness for C5: wrapping the concrete rejecting operation still records
one sample and re-raises the original thrown value. -/
theorem measureTime_passthrough_witness :
    (measureTime HistogramName.execution_time failingOp initMState).1
      = (failingOp initMState).1 ∧
    ((measureTime HistogramName.execution_time failingOp initMState).2).histograms
        HistogramName.execution_time
      = ((failingOp initMState).2).histograms HistogramName.execution_time
          ++ [((failingOp initMState).2).clock - initMState.clock] ∧
    ((measureTime HistogramName.execution_time failingOp initMState).2).histograms
        HistogramName.install_time
      = ((failingOp initMState).2).histograms HistogramName.install_time ∧
    ((measureTime HistogramName.execution_time failingOp initMState).2).counters
      = ((failingOp initMState).2).counters ∧
    (∀ v, (failingOp initMState).1 = Except.ok v →
      (measureTime HistogramName.execution_time failingOp initMState).1 = Except.ok v) ∧
    (∀ e, (failingOp initMState).1 = Except.error e →
      (measureTime HistogramName.execution_time failingOp initMState).1 = Except.error e) :=
  measureTime_passthrough HistogramName.execution_time failingOp initMState
    HistogramName.install_time (by decide)

/-! ## Counter monotonicity (claim C9) -/

/-- One non-reset operation with a non-negative increment amount never
decreases a counter. -/
lemma applyOp_counter_le (name : CounterName) (s : MState) (op : MetricsOp)
    (hnr : op ≠ MetricsOp.reset)
    (hpos : ∀ cn amt, op = MetricsOp.inc cn amt → 0 ≤ amt) :
    getCounter name s ≤ getCounter name (applyOp s op) := by
  cases op with
  | inc cn amt =>
    have := hpos cn amt rfl
    simp only [applyOp, incrementCounter, getCounter]
    by_cases hc : name = cn
    · simp only [hc, if_pos rfl]
      omega
    · simp [hc]
  | record hname v => simp [applyOp, recordHistogram, getCounter]
  | reset => exact absurd rfl hnr

/-- A reset-free sequence of operations with non-negative increment amounts
never decreases a counter. -/
lemma applyOps_counter_mono (name : CounterName) :
    ∀ (ops : List MetricsOp) (s : MState),
      (∀ op ∈ ops, op ≠ MetricsOp.reset) →
      (∀ cn amt, MetricsOp.inc cn amt ∈ ops → 0 ≤ amt) →
      getCounter name s ≤ getCounter name (applyOps s ops)
  | [], _, _, _ => le_refl _
  | op :: ops, s, hnr, hpos => by
    have h1 : getCounter name s ≤ getCounter name (applyOp s op) :=
      applyOp_counter_le name s op (hnr op (List.mem_cons_self op ops))
        (fun cn amt he => hpos cn amt (he ▸ List.mem_cons_self op ops))
    have h2 := applyOps_counter_mono name ops (applyOp s op)
      (fun o ho => hnr o (List.mem_cons_of_mem op ho))
      (fun cn amt hm => hpos cn amt (List.mem_cons_of_mem op hm))
    calc getCounter name s ≤ getCounter name (applyOp s op) := h1
      _ ≤ _ := h2

/-- C9 counterexample: the claim quantifies over *every* choice of increment
amounts, but `incrementCounter` accepts a negative amount, under which the
counter both goes negative and strictly decreases with no reset involved. -/
theorem counter_negative_amount_cex :
    getCounter CounterName.tasks_spawned
        (applyOps initMState [MetricsOp.inc CounterName.tasks_spawned (-1)]) = -1 ∧
    getCounter CounterName.tasks_spawned initMState = 0 ∧
    getCounter CounterName.tasks_spawned
        (applyOps initMState [MetricsOp.inc CounterName.tasks_spawned (-1)])
      < getCounter CounterName.tasks_spawned initMState ∧
    getCounter CounterName.tasks_spawned
        (applyOps initMState [MetricsOp.inc CounterName.tasks_spawned (-1)]) < 0 := by
  refine ⟨?_, rfl, ?_, ?_⟩ <;>
    simp [applyOps, applyOp, incrementCounter, getCounter, initMState]

/-- C9 (amended): along any reset-free operation sequence all of whose
increment amounts are non-negative, every counter stays non-negative and is
monotone over prefixes. -/
theorem counters_monotone_nonneg (pre suf : List MetricsOp) (name : CounterName)
    (hnr : ∀ op ∈ pre ++ suf, op ≠ MetricsOp.reset)
    (hpos : ∀ cn amt, MetricsOp.inc cn amt ∈ pre ++ suf → 0 ≤ amt) :
    0 ≤ getCounter name (applyOps initMState (pre ++ suf)) ∧
    0 ≤ getCounter name (applyOps initMState pre) ∧
    getCounter name (applyOps initMState pre)
      ≤ getCounter name (applyOps initMState (pre ++ suf)) := by
  have hinit : getCounter name initMState = 0 := rfl
  have hpre : 0 ≤ getCounter name (applyOps initMState pre) := by
    have := applyOps_counter_mono name pre initMState
      (fun o ho => hnr o (List.mem_append_left suf ho))
      (fun cn amt hm => hpos cn amt (List.mem_append_left suf hm))
    omega
  have happ : applyOps initMState (pre ++ suf)
      = applyOps (applyOps initMState pre) suf := by
    simp [applyOps, List.foldl_append]
  have hsuf : getCounter name (applyOps initMState pre)
      ≤ getCounter name (applyOps (applyOps initMState pre) suf) :=
    applyOps_counter_mono name suf (applyOps initMState pre)
      (fun o ho => hnr o (List.mem_append_right pre ho))
      (fun cn amt hm => hpos cn amt (List.mem_append_right pre hm))
  rw [happ]
  exact ⟨le_trans hpre hsuf, hpre, hsuf⟩

/-! ## Retry executor lemmas and claims (C1, C6, C7, C10) -/

/-- If every attempt fails and the predicate always accepts, the loop from
`attempt` with `remaining` retries allowed performs `remaining + 1`
invocations and surfaces the coercion of the last attempt's thrown value. -/
lemma retryAux_all_fail {T : Type} (fn : Nat → Except Thrown T) (errs : Nat → Thrown)
    (h : ∀ i, fn i = Except.error (errs i))
    (pred : JsError → Nat → Bool) (hp : ∀ e a, pred e a = true)
    (b M : ℚ) (r : Nat → ℚ) :
    ∀ (remaining attempt : Nat),
      (retryAux fn pred b M r attempt remaining).invocations = remaining + 1 ∧
      (retryAux fn pred b M r attempt remaining).result
        = Except.error (coerceThrown (errs (attempt + remaining)))
  | 0, attempt => by
    simp [retryAux, h attempt]
  | remaining + 1, attempt => by
    have ih := retryAux_all_fail fn errs h pred hp b M r remaining (attempt + 1)
    have harith : attempt + 1 + remaining = attempt + (remaining + 1) := by omega
    simp only [retryAux, h attempt, hp, if_true]
    constructor
    · simp only [ih.1]
      omega
    · rw [ih.2, harith]

/-- If attempts `attempt..attempt+k-1` fail with retryable errors and attempt
`attempt+k` succeeds, the loop returns that success after exactly `k + 1`
invocations, with the predicate, observer and delay traces pinned exactly. -/
lemma retryAux_succeeds {T : Type} (fn : Nat → Except Thrown T) (errs : Nat → Thrown)
    (pred : JsError → Nat → Bool) (b M : ℚ) (r : Nat → ℚ) (v : T) :
    ∀ (k attempt remaining : Nat), k ≤ remaining →
      (∀ i, i < k → fn (attempt + i) = Except.error (errs (attempt + i))) →
      (∀ i, i < k → pred (coerceThrown (errs (attempt + i))) (attempt + i) = true) →
      fn (attempt + k) = Except.ok v →
      retryAux fn pred b M r attempt remaining =
        ⟨k + 1, Except.ok v,
         (List.range k).map (fun i => (coerceThrown (errs (attempt + i)), attempt + i)),
         (List.range k).map (fun i =>
           (coerceThrown (errs (attempt + i)), attempt + i + 1,
            calculateDelay (attempt + i) b M (r (attempt + i)))),
         (List.range k).map (fun i => calculateDelay (attempt + i) b M (r (attempt + i)))⟩
  | 0, attempt, remaining, _, _, _, hsucc => by
    have h0 : fn attempt = Except.ok v := by simpa using hsucc
    cases remaining <;> simp [retryAux, h0]
  | k + 1, attempt, remaining, hk, hfail, hpred, hsucc => by
    obtain ⟨rem, rfl⟩ : ∃ rem, remaining = rem + 1 := by
      cases remaining with
      | zero => omega
      | succ n => exact ⟨n, rfl⟩
    have h0 : fn attempt = Except.error (errs attempt) := by
      simpa using hfail 0 (by omega)
    have hp0 : pred (coerceThrown (errs attempt)) attempt = true := by
      simpa using hpred 0 (by omega)
    have ih := retryAux_succeeds fn errs pred b M r v k (attempt + 1) rem
      (by omega)
      (fun i hi => by
        have := hfail (i + 1) (by omega)
        simpa [Nat.add_assoc, Nat.add_comm 1 i] using this)
      (fun i hi => by
        have := hpred (i + 1) (by omega)
        simpa [Nat.add_assoc, Nat.add_comm 1 i] using this)
      (by
        have := hsucc
        simpa [Nat.add_assoc, Nat.add_comm 1 k] using this)
    simp only [retryAux, h0, hp0, if_true, ih]
    rw [List.range_succ_eq_map]
    simp only [List.map_cons, List.map_map, Nat.add_zero, Function.comp_def,
      RetryTrace.mk.injEq]
    refine ⟨by omega, trivial, ?_, ?_, ?_⟩
    all_goals
      congr 1
      all_goals first
        | rfl
        | (apply List.map_congr_left
           intro i _
           have hi : attempt + 1 + i = attempt + i.succ := by omega
           rw [hi])

/-- C1: against an operation that fails on every attempt and a policy whose
predicate always accepts, `retry` with `maxRetries = m` invokes the operation
exactly `m + 1` times, and the surfaced failure is the coercion of the last
attempt's thrown value — in particular, when the last attempt throws an
`Error` instance, exactly that error, never a synthetic wrapper. -/
theorem retry_exhausts_surfaces_last_error {T : Type} (fn : Nat → Except Thrown T)
    (m : Nat) (errs : Nat → Thrown) (h : ∀ i, fn i = Except.error (errs i))
    (pred : JsError → Nat → Bool) (hp : ∀ e a, pred e a = true)
    (b M : ℚ) (r : Nat → ℚ) :
    (retry fn m pred b M r).invocations = m + 1 ∧
    (retry fn m pred b M r).result = Except.error (coerceThrown (errs m)) ∧
    (∀ e, errs m = Thrown.jsError e →
      (retry fn m pred b M r).result = Except.error e) := by
  have key := retryAux_all_fail fn errs h pred hp b M r m 0
  rw [Nat.zero_add] at key
  refine ⟨key.1, key.2, fun e he => ?_⟩
  rw [he] at key
  exact key.2

/-- A constantly failing `Error`-throwing operation, and its error. -/
def boomErr : JsError :=
  { name := "Error", message := "boom", stack := none, raData := none }

/-- An operation that rejects with `boomErr` on every attempt. -/
def alwaysBoom : Nat → Except Thrown Unit :=
  fun _ => Except.error (Thrown.jsError boomErr)

/-- Witness for C1: `maxRetries = 3` gives exactly `4` invocations and
surfaces the fourth attempt's error itself. -/
theorem retry_exhausts_surfaces_last_error_witness :
    (retry alwaysBoom 3 defaultShouldRetry 1000 30000 (fun _ => 0)).invocations
      = 3 + 1 ∧
    (retry alwaysBoom 3 defaultShouldRetry 1000 30000 (fun _ => 0)).result
      = Except.error boomErr :=
  ⟨(retry_exhausts_surfaces_last_error alwaysBoom 3 (fun _ => Thrown.jsError boomErr)
      (fun _ => rfl) defaultShouldRetry (fun _ _ => rfl) 1000 30000 (fun _ => 0)).1,
   (retry_exhausts_surfaces_last_error alwaysBoom 3 (fun _ => Thrown.jsError boomErr)
      (fun _ => rfl) defaultShouldRetry (fun _ _ => rfl) 1000 30000 (fun _ => 0)).2.2
      boomErr rfl⟩

/-- C6: when the first attempt fails and the predicate declines at
`(error, 0)`, `retry` performs exactly one invocation, sleeps no delay,
never calls the observer, and surfaces that failure at once — the whole
trace is pinned. -/
theorem retry_nonretryable_short_circuit {T : Type} (fn : Nat → Except Thrown T)
    (m : Nat) (t : Thrown) (pred : JsError → Nat → Bool) (b M : ℚ) (r : Nat → ℚ)
    (hm : 1 ≤ m) (h0 : fn 0 = Except.error t)
    (hpred : pred (coerceThrown t) 0 = false) :
    retry fn m pred b M r =
      ⟨1, Except.error (coerceThrown t), [(coerceThrown t, 0)], [], []⟩ := by
  obtain ⟨m1, rfl⟩ : ∃ m1, m = m1 + 1 := ⟨m - 1, by omega⟩
  simp [retry, retryAux, h0, hpred]

/-- Witness for C6 at a concrete always-declining predicate. -/
theorem retry_nonretryable_short_circuit_witness :
    retry alwaysBoom 1 (fun _ _ => false) 1000 30000 (fun _ => 0) =
      ⟨1, Except.error boomErr, [(boomErr, 0)], [], []⟩ :=
  retry_nonretryable_short_circuit alwaysBoom 1 (Thrown.jsError boomErr)
    (fun _ _ => false) 1000 30000 (fun _ => 0) (le_refl 1) rfl rfl

/-- C10: if attempts `0..k-1` fail with retryable errors and attempt
`k ≤ maxRetries` succeeds, `retry` returns exactly that result after exactly
`k + 1` invocations; the predicate and observer traces are exactly those
generated by the earlier failures — neither is ever invoked for attempt `k`
itself. -/
theorem retry_returns_first_success {T : Type} (fn : Nat → Except Thrown T)
    (m k : Nat) (v : T) (errs : Nat → Thrown) (pred : JsError → Nat → Bool)
    (b M : ℚ) (r : Nat → ℚ)
    (hk : k ≤ m)
    (hfail : ∀ i, i < k → fn i = Except.error (errs i))
    (hpred : ∀ i, i < k → pred (coerceThrown (errs i)) i = true)
    (hsucc : fn k = Except.ok v) :
    retry fn m pred b M r =
      ⟨k + 1, Except.ok v,
       (List.range k).map (fun i => (coerceThrown (errs i), i)),
       (List.range k).map (fun i =>
         (coerceThrown (errs i), i + 1, calculateDelay i b M (r i))),
       (List.range k).map (fun i => calculateDelay i b M (r i))⟩ := by
  have key := retryAux_succeeds fn errs pred b M r v k 0 m hk
    (fun i hi => by simpa using hfail i hi)
    (fun i hi => by simpa using hpred i hi)
    (by simpa using hsucc)
  simpa [retry] using key

/-- An operation that fails twice with `boomErr` and then succeeds with `42`. -/
def succeedsAtTwo : Nat → Except Thrown Nat :=
  fun i => if i < 2 then Except.error (Thrown.jsError boomErr) else Except.ok 42

/-- Witness for C10: two retryable failures, success on attempt `2` of a
`maxRetries = 3` policy — three invocations, result `42`, traces pinned. -/
theorem retry_returns_first_success_witness :
    retry succeedsAtTwo 3 defaultShouldRetry 1000 30000 (fun _ => 0) =
      ⟨2 + 1, Except.ok 42,
       (List.range 2).map (fun i => (boomErr, i)),
       (List.range 2).map (fun i => (boomErr, i + 1, calculateDelay i 1000 30000 0)),
       (List.range 2).map (fun i => calculateDelay i 1000 30000 0)⟩ :=
  retry_returns_first_success succeedsAtTwo 3 2 42 (fun _ => Thrown.jsError boomErr)
    defaultShouldRetry 1000 30000 (fun _ => 0) (by omega)
    (fun i hi => by simp [succeedsAtTwo, hi])
    (fun _ _ => rfl) rfl

/-- An operation that rejects with the non-`Error` value `"boom"` on every
attempt. -/
def boomOp : Nat → Except Thrown Unit :=
  fun _ => Except.error (Thrown.other "boom")

/-- The plain `Error` that `retry` builds from the thrown string `"boom"`. -/
def plainBoom : JsError :=
  { name := "Error", message := "boom", stack := none, raData := none }

/-- C7 counterexample: a non-`Error` thrown value is surfaced by `retry` as a
plain `Error` (`new Error(String(error))`) carrying no taxonomy data at all —
no code, no timestamp, no context — so it is not coerced into the taxonomy's
base shape. -/
theorem retry_no_taxonomy_coercion_cex :
    (retry boomOp 0 defaultShouldRetry 1000 30000 (fun _ => 0)).result
      = Except.error plainBoom ∧
    plainBoom.raData = none :=
  ⟨rfl, rfl⟩

/-- C7 (amended): inside `retry`, a thrown value that is an `Error` instance
is passed to the predicate, observer and final surface unchanged; any other
thrown value is wrapped as a plain `Error` whose message is its string form,
with no taxonomy fields attached. -/
theorem retry_coerces_plain_error {T : Type} (fn : Nat → Except Thrown T)
    (m : Nat) (t : Thrown) (pred : JsError → Nat → Bool) (b M : ℚ) (r : Nat → ℚ)
    (hm : 1 ≤ m) (h0 : fn 0 = Except.error t)
    (hpred : pred (coerceThrown t) 0 = true) :
    (retry fn m pred b M r).predCalls.head? = some (coerceThrown t, 0) ∧
    (retry fn m pred b M r).observerCalls.head?
      = some (coerceThrown t, 1, calculateDelay 0 b M (r 0)) ∧
    (∀ e, t = Thrown.jsError e → coerceThrown t = e) ∧
    (∀ s, t = Thrown.other s →
      coerceThrown t = { name := "Error", message := s, stack := none, raData := none }) := by
  obtain ⟨m1, rfl⟩ : ∃ m1, m = m1 + 1 := ⟨m - 1, by omega⟩
  refine ⟨?_, ?_, fun e he => by subst he; rfl, fun s hs => by subst hs; rfl⟩ <;>
    simp [retry, retryAux, h0, hpred]

/-- Witness for the amended C7 at the concrete thrown string `"boom"`. -/
theorem retry_coerces_plain_error_witness :
    (retry boomOp 1 defaultShouldRetry 1000 30000 (fun _ => 0)).predCalls.head?
      = some (plainBoom, 0) ∧
    (retry boomOp 1 defaultShouldRetry 1000 30000 (fun _ => 0)).observerCalls.head?
      = some (plainBoom, 1, calculateDelay 0 1000 30000 0) ∧
    coerceThrown (Thrown.other "boom") = plainBoom :=
  ⟨(retry_coerces_plain_error boomOp 1 (Thrown.other "boom") defaultShouldRetry
      1000 30000 (fun _ => 0) (le_refl 1) rfl rfl).1,
   (retry_coerces_plain_error boomOp 1 (Thrown.other "boom") defaultShouldRetry
      1000 30000 (fun _ => 0) (le_refl 1) rfl rfl).2.1,
   (retry_coerces_plain_error boomOp 1 (Thrown.other "boom") defaultShouldRetry
      1000 30000 (fun _ => 0) (le_refl 1) rfl rfl).2.2.2 "boom" rfl⟩

/-- Witness for the amended C9 at a concrete reset-free sequence. -/
theorem counters_monotone_nonneg_witness :
    0 ≤ getCounter CounterName.tasks_spawned
        (applyOps initMState
          ([MetricsOp.inc CounterName.tasks_spawned 2]
            ++ [MetricsOp.record HistogramName.execution_time 5,
                MetricsOp.inc CounterName.tasks_spawned 1])) ∧
    0 ≤ getCounter CounterName.tasks_spawned
        (applyOps initMState [MetricsOp.inc CounterName.tasks_spawned 2]) ∧
    getCounter CounterName.tasks_spawned
        (applyOps initMState [MetricsOp.inc CounterName.tasks_spawned 2])
      ≤ getCounter CounterName.tasks_spawned
        (applyOps initMState
          ([MetricsOp.inc CounterName.tasks_spawned 2]
            ++ [MetricsOp.record HistogramName.execution_time 5,
                MetricsOp.inc CounterName.tasks_spawned 1])) :=
  counters_monotone_nonneg
    [MetricsOp.inc CounterName.tasks_spawned 2]
    [MetricsOp.record HistogramName.execution_time 5,
     MetricsOp.inc CounterName.tasks_spawned 1]
    CounterName.tasks_spawned
    (by decide)
    (by
      intro cn amt hm
      simp only [List.cons_append, List.nil_append, List.mem_cons,
        List.not_mem_nil, or_false] at hm
      rcases hm with h | h | h <;> first
        | (cases h; omega)
        | simp at h)

/-! ## Shutdown orchestrator claims (C2, C3) -/

/-- Invariant maintained by every shutdown-module step: the registry's key
set is duplicate-free; the execution count is `1` when `shutdownPromise` is
set and `0` (with no kills issued) when it is not; the kill list is
duplicate-free; and every `shutdownAll` call so far resolved to execution
`0`. -/
def SdInv (s : SdState) : Prop :=
  s.registry.Nodup ∧
  (s.promiseSet = true → s.executions = 1) ∧
  (s.promiseSet = false → s.executions = 0 ∧ s.kills = []) ∧
  s.kills.Nodup ∧
  (∀ x ∈ s.callResults, x = 0)

/-- The initial shutdown state satisfies the invariant. -/
lemma sdInv_init : SdInv initSd := by
  simp [SdInv, initSd]

/-- Every event preserves the shutdown invariant. -/
lemma sdInv_step (s : SdState) (e : SdEvent) (h : SdInv s) : SdInv (sdStep s e) := by
  obtain ⟨hreg, hps1, hps0, hkills, hcalls⟩ := h
  cases e with
  | register id =>
    by_cases hm : id ∈ s.registry
    · have hc : s.registry.contains id = true := by simpa using hm
      simp only [sdStep, sdRegister, if_pos hc]
      exact ⟨hreg, hps1, hps0, hkills, hcalls⟩
    · have hc : ¬ s.registry.contains id = true := by simpa using hm
      simp only [sdStep, sdRegister, if_neg hc]
      refine ⟨?_, hps1, hps0, hkills, hcalls⟩
      simp [List.nodup_append, hreg, hm]
  | unregister id =>
    exact ⟨hreg.filter _, hps1, hps0, hkills, hcalls⟩
  | shutdownCall =>
    by_cases hp : s.promiseSet = true
    · have he1 : s.executions = 1 := hps1 hp
      simp only [sdStep, sdShutdownAll, if_pos hp]
      refine ⟨hreg, fun _ => he1, fun hfalse => ?_, hkills, ?_⟩
      · rw [hp] at hfalse
        simp at hfalse
      · intro x hx
        rcases List.mem_append.mp hx with hx | hx
        · exact hcalls x hx
        · simp only [List.mem_singleton] at hx
          omega
    · have he0 := hps0 (by simpa using hp)
      simp only [sdStep, sdShutdownAll, if_neg hp]
      refine ⟨hreg, fun _ => by simp [he0.1], fun hfalse => by simp at hfalse, ?_, ?_⟩
      · rw [he0.2]
        simpa using hreg
      · intro x hx
        rcases List.mem_append.mp hx with hx | hx
        · exact hcalls x hx
        · simp only [List.mem_singleton] at hx
          omega

/-- The invariant holds along any event sequence. -/
lemma sdInv_foldl : ∀ (events : List SdEvent) (s : SdState), SdInv s →
    SdInv (events.foldl sdStep s)
  | [], _, h => h
  | e :: es, s, h => sdInv_foldl es (sdStep s e) (sdInv_step s e h)

/-- The invariant holds after any event sequence from the initial state. -/
lemma sdInv_runSd (events : List SdEvent) : SdInv (runSd events) :=
  sdInv_foldl events initSd sdInv_init

/-- C2: across any sequence of registrations, unregistrations and
`shutdownAll` calls, at most one shutdown execution is ever started, every
call resolves to that single execution (index `0`), and no resource's
`kill()` capability is invoked more than once. -/
theorem shutdownAll_single_execution (events : List SdEvent) (x : Nat)
    (hx : x ∈ (runSd events).callResults) :
    (runSd events).executions ≤ 1 ∧ x = 0 ∧ (runSd events).kills.Nodup := by
  obtain ⟨hreg, hps1, hps0, hkills, hcalls⟩ := sdInv_runSd events
  refine ⟨?_, hcalls x hx, hkills⟩
  by_cases hp : (runSd events).promiseSet = true
  · rw [hps1 hp]
  · rw [(hps0 (by simpa using hp)).1]
    omega

/-- Witness for C2: one registration followed by two `shutdownAll` calls. -/
theorem shutdownAll_single_execution_witness :
    (runSd [SdEvent.register "a", SdEvent.shutdownCall,
      SdEvent.shutdownCall]).executions ≤ 1 ∧
    (0 : Nat) = 0 ∧
    (runSd [SdEvent.register "a", SdEvent.shutdownCall,
      SdEvent.shutdownCall]).kills.Nodup :=
  shutdownAll_single_execution
    [SdEvent.register "a", SdEvent.shutdownCall, SdEvent.shutdownCall] 0 (by decide)

/-- A drained id is never in the result of its own per-resource callback,
whatever the teardown outcome. -/
lemma shutdownOne_not_mem_self (o : TeardownOutcome) (reg : List String) (id : String) :
    id ∉ shutdownOne o reg id := by
  by_cases hc : reg.contains id = true
  · simp only [shutdownOne, if_pos hc]
    cases o <;> simp [List.mem_filter]
  · simp only [shutdownOne, if_neg hc]
    simpa using hc

/-- A per-resource callback never adds registry entries. -/
lemma shutdownOne_subset (o : TeardownOutcome) (reg : List String) (id x : String)
    (hx : x ∈ shutdownOne o reg id) : x ∈ reg := by
  by_cases hc : reg.contains id = true
  · simp only [shutdownOne, if_pos hc] at hx
    cases o <;> exact (List.mem_filter.mp hx).1
  · simp only [shutdownOne, if_neg hc] at hx
    exact hx

/-- Folding per-resource callbacks never adds registry entries. -/
lemma foldl_shutdown_subset (outcomes : String → TeardownOutcome) :
    ∀ (l : List String) (reg : List String) (x : String),
      x ∈ l.foldl (fun r id => shutdownOne (outcomes id) r id) reg → x ∈ reg
  | [], _, _, hx => hx
  | hd :: tl, reg, x, hx =>
    shutdownOne_subset (outcomes hd) reg hd x
      (foldl_shutdown_subset outcomes tl (shutdownOne (outcomes hd) reg hd) x hx)

/-- Every id whose callback runs is absent from the folded registry. -/
lemma foldl_shutdown_removes (outcomes : String → TeardownOutcome) :
    ∀ (l : List String) (reg : List String) (id : String), id ∈ l →
      id ∉ l.foldl (fun r i => shutdownOne (outcomes i) r i) reg
  | hd :: tl, reg, id, hmem, hcontra => by
    rcases List.mem_cons.mp hmem with rfl | htl
    · exact shutdownOne_not_mem_self (outcomes id) reg id
        (foldl_shutdown_subset outcomes tl (shutdownOne (outcomes id) reg id) id hcontra)
    · exact foldl_shutdown_removes outcomes tl (shutdownOne (outcomes hd) reg hd) id htl hcontra

/-- C3: when the draining procedure completes, the final registry is empty
for every starting registry, every per-resource teardown outcome (success,
error, or timeout), and every number of callbacks that settle before the
overall ceiling; moreover every single per-resource callback removes its
entry regardless of outcome, so each settled resource is already gone before
the final clear. -/
theorem drain_empties_registry (reg0 : List String)
    (outcomes : String → TeardownOutcome) (settled : Nat) (id : String)
    (h : id ∈ reg0.take settled) :
    (drainAll reg0 outcomes settled).2 = [] ∧
    (∀ o reg x, x ∉ shutdownOne o reg x) ∧
    id ∉ (drainAll reg0 outcomes settled).1 := by
  refine ⟨rfl, fun o reg x => shutdownOne_not_mem_self o reg x, ?_⟩
  exact foldl_shutdown_removes outcomes (reg0.take settled) reg0 id h

/-- Witness for C3: two resources, both timing out, both settle. -/
theorem drain_empties_registry_witness :
    (drainAll ["a", "b"] (fun _ => TeardownOutcome.timedOut) 2).2 = [] ∧
    (∀ o reg x, x ∉ shutdownOne o reg x) ∧
    "a" ∉ (drainAll ["a", "b"] (fun _ => TeardownOutcome.timedOut) 2).1 :=
  drain_empties_registry ["a", "b"] (fun _ => TeardownOutcome.timedOut) 2 "a" (by decide)

/-! ## Error-coercion claim (C8) -/

/-- C8 counterexample: the code assigns code `"UNKNOWN_ERROR"`, not
`"UNKNOWN"` as the claim states, to a coerced foreign value. -/
theorem toRemoteAgentError_code_cex :
    errCode (toRemoteAgentError 0 (Thrown.other "boom")) = some "UNKNOWN_ERROR" ∧
    errCode (toRemoteAgentError 0 (Thrown.other "boom")) ≠ some "UNKNOWN" := by
  refine ⟨rfl, ?_⟩
  decide

/-- C8 (amended): for every foreign thrown value that is not already a
taxonomy error, `toRemoteAgentError` returns a base-shape error with code
`"UNKNOWN_ERROR"`, preserving the original message (string form for
non-`Error` values) and, for `Error` instances, carrying the original name
and stack in the context. -/
theorem toRemoteAgentError_unknown_code (now : Nat) (t : Thrown)
    (h : isRemoteAgentError t = false) :
    (∀ e, t = Thrown.jsError e →
      toRemoteAgentError now t =
        { name := "RemoteAgentError", message := e.message, stack := none,
          raData := some { code := "UNKNOWN_ERROR", timestamp := now,
                           context := some [("originalName", some e.name),
                                            ("originalStack", e.stack)] } }) ∧
    (∀ s, t = Thrown.other s →
      toRemoteAgentError now t =
        { name := "RemoteAgentError", message := s, stack := none,
          raData := some { code := "UNKNOWN_ERROR", timestamp := now,
                           context := none } }) := by
  constructor
  · intro e he
    subst he
    have h2 : e.raData.isSome = false := by simpa [isRemoteAgentError] using h
    simp [toRemoteAgentError, h2]
  · intro s hs
    subst hs
    rfl

/-- Witness for the amended C8 at a concrete foreign `TypeError`. -/
theorem toRemoteAgentError_unknown_code_witness :
    toRemoteAgentError 5 (Thrown.jsError
        { name := "TypeError", message := "bad", stack := some "trace", raData := none }) =
      { name := "RemoteAgentError", message := "bad", stack := none,
        raData := some { code := "UNKNOWN_ERROR", timestamp := 5,
                         context := some [("originalName", some "TypeError"),
                                          ("originalStack", some "trace")] } } :=
  (toRemoteAgentError_unknown_code 5 (Thrown.jsError
      { name := "TypeError", message := "bad", stack := some "trace", raData := none })
      rfl).1
    { name := "TypeError", message := "bad", stack := some "trace", raData := none } rfl

end RemoteSubagents
